import Mathlib

/-!
Shallow embedding of `asteroid01.py` (Jessime/Asteroid): a minimal
Model-View-Controller game loop.  Wall-clock time is modelled by a `Clock`
state carrying the current time as a rational, together with a stream of
drift increments consumed at each `time.time()` read (one increment per
read, so real time passing between reads is represented explicitly);
`time.sleep(d)` advances the clock by exactly `d`.  The graphics toolkit
(window, labels, mouse/key polling) is modelled by explicit data: labels
are strings, and each iteration's polled input is an `InputEvent` taken
from a stream.
-/

namespace Asteroid

/-- A `grf.Point` (only used as the opaque payload of a mouse click). -/
structure Point where
  x : ℚ
  y : ℚ
deriving DecidableEq, Repr

/-- The observables dict `{'time': ..., 'done': ...}` passed from Model to View. -/
structure Observables where
  time : ℚ
  done : Bool
deriving DecidableEq, Repr

/-- The model state of `Model.__init__`: width, height, time, done, observables. -/
structure Model where
  width : ℕ
  height : ℕ
  time : ℚ
  done : Bool
  observables : Observables
deriving DecidableEq, Repr

/-- The `Model()` constructor. -/
def Model.init : Model :=
  { width := 1200, height := 800, time := 0, done := false
    observables := { time := 0, done := false } }

/-- Python `Model.set_time`. -/
def Model.set_time (m : Model) (t : ℚ) : Model :=
  { m with time := t }

/-- Python `Model.update_observables`: recreate the observables dict from the
current `time` and `done`. -/
def Model.update_observables (m : Model) : Model :=
  { m with observables := { time := m.time, done := m.done } }

/-- Python `Model.update(click, key)`: sets `done` when the key is `'a'`, refreshes
the observables, returns `done`.  The Python method mutates `self` and
returns `self.done`; here it returns the pair (returned value, new model). -/
def Model.update (m : Model) (click : Option Point) (key : Option String) :
    Bool × Model :=
  let m1 := if key = some "a" then { m with done := true } else m
  let m2 := m1.update_observables
  (m2.done, m2)

/-- Python's `'{}'.format(bool)` rendering. -/
def pyBoolString (b : Bool) : String :=
  if b then "True" else "False"

/-- Python's `int()` applied to a rational: truncation toward zero
(`Int.tdiv` truncates toward zero, and `q.num.tdiv q.den` is the truncation
of `q`). -/
def pyInt (q : ℚ) : ℤ :=
  q.num.tdiv q.den

/-- The `View`: window plus the two text labels; `observed` is the
observables dict most recently received from the model (`None` initially). -/
structure View where
  width : ℕ
  height : ℕ
  background : Option String
  time_text : String
  done_text : String
  drawn : Bool
  closed : Bool
  observed : Option Observables
deriving DecidableEq, Repr

/-- The `View(width, height)` constructor. -/
def View.init (w h : ℕ) : View :=
  { width := w, height := h, background := none
    time_text := "Time: 0", done_text := "Done: False"
    drawn := false, closed := false, observed := none }

/-- Python `View.initialize`: set the background and draw the labels for the first
time (the name is shortened; the Python method is the View's initialize). -/
def View.initialDraw (v : View) : View :=
  { v with background := some "white", drawn := true }

/-- Python `View.draw_time`: set the time label from `observed['time']`.  Reading
`observed` when it is `None` is a Python `TypeError`, modelled as `none`. -/
def View.draw_time (v : View) : Option View :=
  v.observed.map fun obs =>
    { v with time_text := "Time: " ++ toString (pyInt obs.time) }

/-- Python `View.draw_done`: set the done label from `observed['done']`. -/
def View.draw_done (v : View) : Option View :=
  v.observed.map fun obs =>
    { v with done_text := "Done: " ++ pyBoolString obs.done }

/-- Python `View.update(observables)`: store the observables, then `draw_time` and
`draw_done`.  Since `observed` has just been set, both draws succeed; the
`getD` default is unreachable. -/
def View.update (v : View) (observables : Observables) : View :=
  let v1 := { v with observed := some observables }
  ((v1.draw_time.bind View.draw_done).getD v1)

/-- Python `View.close` (`self.win.close()`). -/
def View.close (v : View) : View :=
  { v with closed := true }

/-- Wall clock: `now` is the current time; `drift i` is the (nonnegative,
when the clock is well-behaved) amount of real time that passes just before
the `i`-th `time.time()` read; `idx` counts the reads made so far. -/
structure Clock where
  now : ℚ
  drift : ℕ → ℚ
  idx : ℕ

/-- All drift increments are nonnegative: the wall clock never runs
backwards. -/
def Clock.Monotone (c : Clock) : Prop :=
  ∀ i, 0 ≤ c.drift i

/-- Python `time.time()`: consume one drift increment and return the new time. -/
def Clock.timeTime (c : Clock) : ℚ × Clock :=
  let t := c.now + c.drift c.idx
  (t, { c with now := t, idx := c.idx + 1 })

/-- Python `time.sleep(d)`: block for exactly `d` seconds. -/
def Clock.sleep (c : Clock) (d : ℚ) : Clock :=
  { c with now := c.now + d }

/-- The input read by one `check_user_input` call:
`checkMouse()` (a point or `None`) and `checkKey()` (a key or absent). -/
structure InputEvent where
  click : Option Point
  key : Option String
deriving DecidableEq, Repr

/-- The `Controller`: model, view, loop flag, last polled input, framerate
(seconds per frame), and the game's start time. -/
structure Controller where
  model : Model
  view : View
  done : Bool
  click : Option Point
  key : Option String
  framerate : ℚ
  start_time : ℚ
deriving DecidableEq, Repr

/-- The `Controller()` constructor (the `View` is built from the model's
width and height). -/
def Controller.init : Controller :=
  { model := Model.init, view := View.init 1200 800
    done := false, click := none, key := none
    framerate := 1/20, start_time := 0 }

/-- Python `Controller.check_user_input`: record the polled click and key. -/
def Controller.check_user_input (c : Controller) (inp : InputEvent) : Controller :=
  { c with click := inp.click, key := inp.key }

/-- Python `Controller.update_time(loop_start)`: read `loop_end = time.time()`,
sleep the remainder of the frame if the iteration ran faster than the
framerate, then set the model time to `time.time() - start_time`. -/
def Controller.update_time (c : Controller) (loop_start : ℚ) (clk : Clock) :
    Controller × Clock :=
  let loop_end := (clk.timeTime).1
  let clk1 := (clk.timeTime).2
  let execute_time := loop_end - loop_start
  let clk2 := if execute_time < c.framerate
    then clk1.sleep (c.framerate - execute_time) else clk1
  let t := (clk2.timeTime).1
  let clk3 := (clk2.timeTime).2
  ({ c with model := c.model.set_time (t - c.start_time) }, clk3)

/-- Python `Controller.update`: one loop iteration — record `loop_start`, poll
input, update the model, render the observables, pace/update the time, and
return `done`. -/
def Controller.update (c : Controller) (inp : InputEvent) (clk : Clock) :
    Bool × Controller × Clock :=
  let loop_start := (clk.timeTime).1
  let clk1 := (clk.timeTime).2
  let c1 := c.check_user_input inp
  let r := c1.model.update c1.click c1.key
  let c2 := { c1 with model := r.2 }
  let c3 := { c2 with view := c2.view.update r.2.observables }
  let rt := c3.update_time loop_start clk1
  (r.1, rt.1, rt.2)

/-- The `while not self.done` loop of `Controller.run`, with fuel bounding
the number of iterations and `i` indexing the input stream: each iteration
sets `self.done = self.update()`. -/
def Controller.loopIter (inputs : ℕ → InputEvent) :
    ℕ → ℕ → Controller → Clock → Controller × Clock
  | 0, _, c, clk => (c, clk)
  | fuel + 1, i, c, clk =>
    if c.done then (c, clk)
    else
      let r := c.update (inputs i) clk
      Controller.loopIter inputs fuel (i + 1) { r.2.1 with done := r.1 } r.2.2

/-- Python `Controller.run`: initialize the view, block for a click, record
`start_time = time.time()`, run the main loop, block for a click, close.
(The two blocking `getMouse()` calls do not read `time.time()`; any real
time they consume is absorbed by the drift of the next read.) -/
def Controller.run (c : Controller) (inputs : ℕ → InputEvent) (fuel : ℕ)
    (clk : Clock) : Controller × Clock :=
  let c1 := { c with view := c.view.initialDraw }
  let t := (clk.timeTime).1
  let clk1 := (clk.timeTime).2
  let c2 := { c1 with start_time := t }
  let r := Controller.loopIter inputs fuel 0 c2 clk1
  ({ r.1 with view := r.1.view.close }, r.2)

/-- Truncation toward zero on ℚ, written from the words of the claim about
`int()`: floor for nonnegative values, ceiling for negative ones. -/
def truncTowardZero (q : ℚ) : ℤ :=
  if 0 ≤ q then ⌊q⌋ else ⌈q⌉

/-! ## Claims -/

/-- C1: for every state and every input whose key is `"a"`, `Model.update`
returns a state with `done = true`, whatever `done` was before (so `done`
stays true on a repeated `"a"`). -/
theorem C1_key_a_sets_done (m : Model) (click : Option Point) :
    (m.update click (some "a")).2.done = true ∧
    (m.update click (some "a")).1 = true := by
  simp [Model.update, Model.update_observables]

/-- C2: for every state and every input whose key is not `"a"` (including
an absent key), `Model.update` leaves `done` unchanged. -/
theorem C2_other_key_preserves_done (m : Model) (click : Option Point)
    (key : Option String) (h : key ≠ some "a") :
    (m.update click key).2.done = m.done := by
  simp [Model.update, Model.update_observables, h]

/-- C2 witness: a concrete non-`"a"` key leaves `done` unchanged. -/
theorem C2_other_key_preserves_done_witness :
    (Model.init.update none (some "b")).2.done = Model.init.done :=
  C2_other_key_preserves_done Model.init none (some "b") (by decide)

/-- C6: `Model.update` never reads the click: any two click values give the
same returned value and the same resulting model. -/
theorem C6_click_irrelevant (m : Model) (key : Option String)
    (c1 c2 : Option Point) :
    m.update c1 key = m.update c2 key := rfl

/-- C7: `Model.update` never modifies the model's time, width or height. -/
theorem C7_update_preserves_time (m : Model) (click : Option Point)
    (key : Option String) :
    (m.update click key).2.time = m.time ∧
    (m.update click key).2.width = m.width ∧
    (m.update click key).2.height = m.height := by
  simp only [Model.update, Model.update_observables]
  split <;> simp

/-- The integer `q.num.tdiv q.den` is exactly truncation toward zero on ℚ. -/
lemma pyInt_eq_truncTowardZero (q : ℚ) : pyInt q = truncTowardZero q := by
  unfold pyInt truncTowardZero
  split
  · next h =>
    rw [Int.tdiv_eq_ediv (Rat.num_nonneg.mpr h) (Int.ofNat_nonneg _),
      ← Rat.floor_def]
  · next h =>
    have h2 : 0 ≤ -q := by linarith [lt_of_not_le h]
    have hnum : q.num = -(-q).num := by rw [Rat.num_neg_eq_neg_num, neg_neg]
    have hden : (q.den : ℤ) = ((-q).den : ℤ) := by rw [Rat.den_neg_eq_den]
    rw [hnum, hden, Int.neg_tdiv,
      Int.tdiv_eq_ediv (Rat.num_nonneg.mpr h2) (Int.ofNat_nonneg _),
      ← Rat.floor_def, Int.floor_neg, neg_neg]

/-- C9: `View.draw_time` sets the time label to `"Time: "` followed by the
observed time passed through Python's `int()`, and `int()` on a rational is
truncation toward zero (floor for nonnegative values, ceiling for negative
ones), so fractional seconds are never displayed. -/
theorem C9_draw_time_truncates (v : View) (obs : Observables) :
    ({ v with observed := some obs } : View).draw_time =
      some { v with observed := some obs
                    time_text := "Time: " ++ toString (pyInt obs.time) } ∧
    ∀ q : ℚ, pyInt q = truncTowardZero q := by
  constructor
  · simp [View.draw_time]
  · exact pyInt_eq_truncTowardZero

/-- C4: the done flag is terminal: neither `Model.update` (with any input),
nor `Model.set_time`, nor `Model.update_observables`, nor a whole
`Controller.update` iteration ever turns `done` back to false. -/
theorem C4_done_terminal :
    (∀ (m : Model) (click : Option Point) (key : Option String),
      m.done = true → (m.update click key).2.done = true) ∧
    (∀ (m : Model) (t : ℚ), (m.set_time t).done = m.done) ∧
    (∀ m : Model, m.update_observables.done = m.done) ∧
    (∀ (c : Controller) (inp : InputEvent) (clk : Clock),
      c.model.done = true → (c.update inp clk).2.1.model.done = true) := by
  refine ⟨?_, ?_, ?_, ?_⟩
  · intro m click key h
    simp only [Model.update, Model.update_observables]
    split <;> simp [h]
  · intro m t; rfl
  · intro m; rfl
  · intro c inp clk h
    simp only [Controller.update, Controller.update_time,
      Controller.check_user_input, Model.update, Model.update_observables,
      Model.set_time]
    split <;> simp_all

/-- C4 witness: a model made done by `"a"` stays done through a further
`Model.update` and through a `Controller.update` iteration. -/
theorem C4_done_terminal_witness :
    ((Model.init.update none (some "a")).2.update none none).2.done = true ∧
    (Controller.update
        { Controller.init with model := (Model.init.update none (some "a")).2 }
        ⟨none, none⟩ ⟨0, fun _ => 0, 0⟩).2.1.model.done = true :=
  ⟨C4_done_terminal.1 _ none none (by decide),
   C4_done_terminal.2.2.2 _ ⟨none, none⟩ ⟨0, fun _ => 0, 0⟩ (by decide)⟩

/-- C5: `Controller.update_time` reads `loop_end`, and when
`loop_end - loop_start < framerate` it sleeps exactly the remainder (so the
clock on return reads `loop_start + framerate` plus the drift of the final
read); otherwise it sleeps nothing (the clock on return reads `loop_end`
plus that drift).  Consequently it never returns before `framerate` seconds
have passed since `loop_start`. -/
theorem C5_update_time_paces (c : Controller) (clk : Clock) (t : ℚ)
    (h1 : 0 ≤ clk.drift clk.idx) (h2 : 0 ≤ clk.drift (clk.idx + 1)) :
    ((c.update_time t clk).2.now =
      (if clk.now + clk.drift clk.idx - t < c.framerate
        then t + c.framerate
        else clk.now + clk.drift clk.idx) + clk.drift (clk.idx + 1)) ∧
    t + c.framerate ≤ (c.update_time t clk).2.now := by
  simp only [Controller.update_time, Clock.timeTime, Clock.sleep]
  split
  · rename_i h
    dsimp only
    constructor
    · ring
    · linarith
  · rename_i h
    have h3 : t + c.framerate ≤ clk.now + clk.drift clk.idx := by
      have := not_lt.mp h; linarith
    dsimp only
    exact ⟨rfl, by linarith⟩

/-- C5 witness: with a drift-free clock at time 0 and `loop_start = 0`,
`update_time` returns with the clock at exactly one frame interval. -/
theorem C5_update_time_paces_witness :
    (0:ℚ) + Controller.init.framerate ≤
      (Controller.init.update_time 0 ⟨0, fun _ => 0, 0⟩).2.now :=
  (C5_update_time_paces Controller.init ⟨0, fun _ => 0, 0⟩ 0
    (by norm_num) (by norm_num)).2

/-- C3 counterexample: with a clock that gains one second before every
read, starting from time 0, the single iteration renders the label from
`time = 0` (the model's prior time), while the elapsed time measured in
that same iteration (and stored by `update_time`, after rendering) is `3`:
the state handed to the render call does NOT carry the elapsed time
measured in that iteration. -/
theorem C3_counterexample :
    ((Controller.init.update ⟨none, none⟩ ⟨0, fun _ => 1, 0⟩).2.1.view.observed.map
        Observables.time) ≠
      some ((Controller.init.update ⟨none, none⟩
        ⟨0, fun _ => 1, 0⟩).2.1.model.time) ∧
    ((Controller.init.update ⟨none, none⟩ ⟨0, fun _ => 1, 0⟩).2.1.view.observed.map
        Observables.time) = some 0 ∧
    (Controller.init.update ⟨none, none⟩ ⟨0, fun _ => 1, 0⟩).2.1.model.time = 3 := by
  refine ⟨?_, ?_, ?_⟩ <;>
  · simp only [Controller.init, Controller.update, Controller.check_user_input,
      Model.init, View.init, Model.update, Model.update_observables,
      Controller.update_time, Model.set_time, View.update, View.draw_time,
      View.draw_done, Clock.timeTime, Clock.sleep]
    norm_num
    try simp
    try norm_num

/-- C3 amended: within a `Controller.update` iteration the render call
comes BEFORE the time update: the observables handed to the view carry the
model time entering the iteration (the value set by the previous
iteration's `update_time`, or 0 before any iteration) together with the
fresh done flag, while the elapsed time measured in this iteration
(final clock read minus `start_time`) is stored into the model only
afterwards, by `update_time`. -/
theorem C3_amended_render_sees_previous_time (c : Controller)
    (inp : InputEvent) (clk : Clock) :
    (c.update inp clk).2.1.view.observed =
      some { time := c.model.time, done := (c.update inp clk).1 } ∧
    (c.update inp clk).2.1.model.time = (c.update inp clk).2.2.now - c.start_time := by
  simp only [Controller.update, Controller.check_user_input, Model.update,
    Model.update_observables, Controller.update_time, Model.set_time,
    View.update, View.draw_time, View.draw_done, Clock.timeTime, Clock.sleep]
  constructor
  · split <;> simp [Option.bind, Option.getD]
  · trivial

/-- One `Controller.update` iteration keeps `start_time`, `framerate` and
the drift stream; it never moves the clock backwards when the drifts are
nonnegative; and it leaves the model time equal to the final clock reading
minus `start_time`. -/
lemma update_clock_facts (c : Controller) (inp : InputEvent) (clk : Clock)
    (hm : clk.Monotone) :
    (c.update inp clk).2.1.start_time = c.start_time ∧
    (c.update inp clk).2.1.framerate = c.framerate ∧
    (c.update inp clk).2.2.drift = clk.drift ∧
    clk.now ≤ (c.update inp clk).2.2.now ∧
    (c.update inp clk).2.1.model.time =
      (c.update inp clk).2.2.now - c.start_time := by
  have h0 := hm clk.idx
  have h1 := hm (clk.idx + 1)
  have h2 := hm (clk.idx + 2)
  simp only [Controller.update, Controller.check_user_input, Model.update,
    Model.update_observables, Controller.update_time, Model.set_time,
    Clock.timeTime, Clock.sleep, View.update, View.draw_time, View.draw_done]
  split
  · rename_i h
    dsimp only
    exact ⟨trivial, trivial, rfl, by linarith, trivial⟩
  · rename_i h
    dsimp only
    exact ⟨trivial, trivial, rfl, by linarith, trivial⟩

/-- C8: with a clock that never runs backwards and a `start_time` not in
the future, the elapsed time stored by an iteration is nonnegative, and
the value stored by the next iteration is at least the value stored by
this one: `elapsed_time` is nonnegative and monotonically non-decreasing
across consecutive iterations. -/
theorem C8_elapsed_time_monotone (c : Controller) (clk : Clock)
    (inp1 inp2 : InputEvent) (hm : clk.Monotone)
    (hs : c.start_time ≤ clk.now) :
    0 ≤ (c.update inp1 clk).2.1.model.time ∧
    (c.update inp1 clk).2.1.model.time ≤
      ((c.update inp1 clk).2.1.update inp2 (c.update inp1 clk).2.2).2.1.model.time := by
  obtain ⟨e1, _, e3, e4, e5⟩ := update_clock_facts c inp1 clk hm
  have hm2 : (c.update inp1 clk).2.2.Monotone := by
    intro i; rw [e3]; exact hm i
  obtain ⟨f1, _, f3, f4, f5⟩ :=
    update_clock_facts (c.update inp1 clk).2.1 inp2 (c.update inp1 clk).2.2 hm2
  constructor
  · rw [e5]; linarith
  · rw [e5, f5, e1]; linarith

/-- C8 witness: a drift-free clock starting at the `start_time` gives a
nonnegative first elapsed time and a non-decreasing second one. -/
theorem C8_elapsed_time_monotone_witness :
    0 ≤ (Controller.init.update ⟨none, none⟩ ⟨0, fun _ => 0, 0⟩).2.1.model.time ∧
    (Controller.init.update ⟨none, none⟩ ⟨0, fun _ => 0, 0⟩).2.1.model.time ≤
      ((Controller.init.update ⟨none, none⟩ ⟨0, fun _ => 0, 0⟩).2.1.update
        ⟨none, none⟩
        (Controller.init.update ⟨none, none⟩ ⟨0, fun _ => 0, 0⟩).2.2).2.1.model.time :=
  C8_elapsed_time_monotone Controller.init ⟨0, fun _ => 0, 0⟩
    ⟨none, none⟩ ⟨none, none⟩ (fun _ => le_refl 0) (by norm_num [Controller.init])

/-- Method `Controller.update` returns the key-driven done value (`true` exactly
when the polled key is `"a"` or the model was already done); the resulting
model's done flag equals that returned value; the controller's own `done`
field is untouched by `update` itself. -/
lemma update_done_char (c : Controller) (inp : InputEvent) (clk : Clock) :
    (c.update inp clk).1 =
      (if inp.key = some "a" then true else c.model.done) ∧
    (c.update inp clk).2.1.model.done = (c.update inp clk).1 ∧
    (c.update inp clk).2.1.done = c.done := by
  simp only [Controller.update, Controller.check_user_input, Model.update,
    Model.update_observables, Controller.update_time, Model.set_time,
    Clock.timeTime, Clock.sleep, View.update, View.draw_time, View.draw_done]
  split <;> simp

/-- Once the controller's done flag is set, the loop performs no further
iteration. -/
lemma loopIter_of_done (inputs : ℕ → InputEvent) (fuel i : ℕ)
    (c : Controller) (clk : Clock) (h : c.done = true) :
    Controller.loopIter inputs fuel i c clk = (c, clk) := by
  cases fuel <;> simp [Controller.loopIter, h]

/-- The loop's done flag after `fuel` attempted iterations starting at
input index `i`: true exactly when it was already true or some consumed
input carried the key `"a"`. -/
lemma loopIter_done_iff (inputs : ℕ → InputEvent) :
    ∀ (fuel i : ℕ) (c : Controller) (clk : Clock),
      c.done = c.model.done →
      ((Controller.loopIter inputs fuel i c clk).1.done = true ↔
        (c.done = true ∨ ∃ j, j < fuel ∧ (inputs (i + j)).key = some "a")) := by
  intro fuel
  induction fuel with
  | zero =>
    intro i c clk hinv
    simp [Controller.loopIter]
  | succ n ih =>
    intro i c clk hinv
    by_cases hd : c.done = true
    · rw [loopIter_of_done inputs (n + 1) i c clk hd]
      simp [hd]
    · have hd' : c.done = false := by
        cases hcd : c.done
        · rfl
        · exact absurd hcd hd
      have hmd : c.model.done = false := by rw [← hinv]; exact hd'
      obtain ⟨hc1, hc2, _⟩ := update_done_char c (inputs i) clk
      have hstep :
          Controller.loopIter inputs (n + 1) i c clk =
            Controller.loopIter inputs n (i + 1)
              { (c.update (inputs i) clk).2.1 with done := (c.update (inputs i) clk).1 }
              (c.update (inputs i) clk).2.2 := by
        simp [Controller.loopIter, hd']
      have hinv2 :
          ({ (c.update (inputs i) clk).2.1 with
              done := (c.update (inputs i) clk).1 } : Controller).done =
            ({ (c.update (inputs i) clk).2.1 with
              done := (c.update (inputs i) clk).1 } : Controller).model.done := by
        dsimp only
        exact hc2.symm
      rw [hstep, ih (i + 1) _ _ hinv2]
      dsimp only
      rw [hc1, hmd]
      constructor
      · rintro (h | ⟨j, hj, hkey⟩)
        · refine Or.inr ⟨0, by omega, ?_⟩
          by_cases ha : (inputs i).key = some "a"
          · simpa using ha
          · rw [if_neg ha] at h; exact absurd h (by decide)
        · exact Or.inr ⟨j + 1, by omega,
            by rw [show i + (j + 1) = i + 1 + j by omega]; exact hkey⟩
      · rintro (h | ⟨j, hj, hkey⟩)
        · rw [hd'] at h; exact absurd h (by decide)
        · cases j with
          | zero =>
            left
            rw [if_pos (by simpa using hkey)]
          | succ j' =>
            exact Or.inr ⟨j', by omega,
              by rw [show i + 1 + j' = i + (j' + 1) by omega]; exact hkey⟩

/-- C10: `Model.update` returns exactly the post-transition done flag; and
starting from a not-yet-done controller, the `while not self.done` loop of
`Controller.run` has terminated after `fuel` attempted iterations exactly
when some polled key among the first `fuel` inputs was `"a"` (once done is
set, no further iteration runs). -/
theorem C10_loop_exits_on_first_a :
    (∀ (m : Model) (click : Option Point) (key : Option String),
      (m.update click key).1 = (m.update click key).2.done) ∧
    (∀ (inputs : ℕ → InputEvent) (fuel : ℕ) (c : Controller) (clk : Clock),
      c.done = false → c.model.done = false →
      ((Controller.loopIter inputs fuel 0 c clk).1.done = true ↔
        ∃ j, j < fuel ∧ (inputs j).key = some "a")) ∧
    (∀ (inputs : ℕ → InputEvent) (fuel i : ℕ) (c : Controller) (clk : Clock),
      c.done = true → Controller.loopIter inputs fuel i c clk = (c, clk)) := by
  refine ⟨fun m click key => rfl, ?_, loopIter_of_done⟩
  intro inputs fuel c clk hd hmd
  have hinv : c.done = c.model.done := by rw [hd, hmd]
  rw [loopIter_done_iff inputs fuel 0 c clk hinv]
  simp [hd]

/-- C10 witness: with the key `"a"` arriving at index 1, the loop is done
after 3 attempted iterations. -/
theorem C10_loop_exits_on_first_a_witness :
    (Controller.loopIter
        (fun j => ⟨none, if j = 1 then some "a" else none⟩) 3 0
        Controller.init ⟨0, fun _ => 0, 0⟩).1.done = true :=
  (C10_loop_exits_on_first_a.2.1
      (fun j => ⟨none, if j = 1 then some "a" else none⟩) 3
      Controller.init ⟨0, fun _ => 0, 0⟩ rfl rfl).mpr
    ⟨1, by omega, rfl⟩

end Asteroid
